import Mathlib

/-!
# Verification of the "Amazons" e-commerce backend

Shallow embedding of `src/main.py` and `src/schemas.py`: a minimal
e-commerce backend (signup/login, category and product catalog, order
checkout) over a document store.  The document store (MongoDB via the
`database` module), the BSON `ObjectId` type and the bcrypt password
hasher are external collaborators; their behaviour at the points this
code exercises is modelled explicitly below, following the spec's
description of them.  Python `float` values are modelled as rationals,
Python truthiness on optional strings as "present and non-empty", and
the per-request handlers as pure functions from a (possibly absent)
database state to a result together with the new state.
-/

namespace Amazons

/-- Field values occurring in stored/returned documents. -/
inductive Val where
  | vstr (s : String)
  | vnum (q : ℚ)
  | vint (n : ℤ)
  | vbool (b : Bool)
  | vnull
  | voidv (n : ℕ)
  deriving DecidableEq, Repr

/-- A document, as the Python dict the handlers build: ordered key/value pairs. -/
abbrev Doc := List (String × Val)

/-- Lowercase hex digit, as Python's hex printing uses. -/
def hexDigitChar (n : ℕ) : Char :=
  if n < 10 then Char.ofNat (48 + n) else Char.ofNat (87 + n)

/-- Big-endian hex rendering of `m`, exactly `k` digits (leading zeros kept). -/
def toHexGo : ℕ → ℕ → List Char
  | 0, _ => []
  | k + 1, m => toHexGo k (m / 16) ++ [hexDigitChar (m % 16)]

/-- Modelled from the spec: `str(ObjectId)` — the 24-lowercase-hex-character
rendering of a BSON object id.  Object ids themselves are modelled as naturals
handed out by a per-store counter. -/
def oidToString (n : ℕ) : String := ⟨toHexGo 24 n⟩

def isHexChar (c : Char) : Bool :=
  c.isDigit || (decide ('a' ≤ c) && decide (c ≤ 'f')) || (decide ('A' ≤ c) && decide (c ≤ 'F'))

def hexVal (c : Char) : ℕ :=
  if c.isDigit then c.toNat - 48
  else if decide ('a' ≤ c) && decide (c ≤ 'f') then c.toNat - 87
  else if decide ('A' ≤ c) && decide (c ≤ 'F') then c.toNat - 55
  else 0

def parseHexNat (s : String) : ℕ := s.data.foldl (fun a c => a * 16 + hexVal c) 0

/-- Modelled from the spec: `bson.ObjectId(s)` accepts exactly the well-formed
string ids — 24 hexadecimal characters — and raises `InvalidId` otherwise. -/
def validObjectId (s : String) : Bool := s.length == 24 && s.data.all isHexChar

/-- Modelled from the spec: the Password Hasher external collaborator
(`passlib.hash.bcrypt`), a one-way hash with a verify operation; modelled as a
deterministic injective encoding so that `bcrypt_verify p h` holds exactly when
`h` is the hash of `p`. -/
def bcrypt_hash (password : String) : String := "bcrypt$" ++ password

def bcrypt_verify (password h : String) : Bool := h == bcrypt_hash password

/-- Python truthiness of an optional string: present and non-empty. -/
def truthy : Option String → Bool
  | none => false
  | some s => !(s == "")

/-- A stored `user`-collection record (schemas.py `User` plus its `_id`). -/
structure StoredUser where
  oid : ℕ
  username : String
  email : Option String
  phone : Option String
  password_hash : String
  name : Option String
  is_active : Bool
  is_admin : Bool
  deriving DecidableEq, Repr

/-- A stored `category`-collection record. -/
structure StoredCategory where
  oid : ℕ
  name : String
  slug : String
  deriving DecidableEq, Repr

/-- A stored `product`-collection record (schemas.py `Product` plus `_id`). -/
structure StoredProduct where
  oid : ℕ
  title : String
  description : Option String
  price : ℚ
  category : String
  image : Option String
  rating : Option ℚ
  rating_count : Option ℤ
  in_stock : Bool
  deriving DecidableEq, Repr

/-- schemas.py `OrderItem`: an embedded order line supplied by the client. -/
structure OrderItem where
  product_id : String
  title : String
  price : ℚ
  quantity : ℤ
  image : Option String
  deriving DecidableEq, Repr

/-- A stored `order`-collection record (schemas.py `Order` plus `_id`). -/
structure StoredOrder where
  oid : ℕ
  user_id : String
  items : List OrderItem
  total : ℚ
  address : String
  status : String
  deriving DecidableEq, Repr

/-- The document store state: one list per collection, in insertion order
(`find` returns documents in storage order), plus the object-id counter. -/
structure Store where
  users : List StoredUser
  categories : List StoredCategory
  products : List StoredProduct
  orders : List StoredOrder
  nextId : ℕ
  deriving DecidableEq, Repr

/-- An HTTP-level outcome: a success value or a status code with detail,
as `HTTPException(status_code, detail)` produces. -/
inductive ApiResult (α : Type) where
  | ok (value : α)
  | error (status : ℕ) (detail : String)
  deriving DecidableEq, Repr

/-- main.py `SignupRequest`. -/
structure SignupRequest where
  username : String
  password : String
  email : Option String
  phone : Option String
  name : Option String
  deriving DecidableEq, Repr

/-- main.py `LoginRequest`. -/
structure LoginRequest where
  username : Option String
  phone : Option String
  password : String
  deriving DecidableEq, Repr

structure SignupOk where
  id : String
  username : String
  deriving DecidableEq, Repr

structure LoginOk where
  id : String
  username : String
  name : Option String
  deriving DecidableEq, Repr

structure CreateOk where
  id : String
  deriving DecidableEq, Repr

/-- One `$or` branch of signup's combined existence check, per stored user.
The Python builds `{"$or": [{"username": u}, {"phone": p} if p else {},
{"email": e} if e else {}]}`; a falsy phone/email contributes the empty
filter `{}`, which matches every document. -/
def signupConflictHit (p : SignupRequest) (u : StoredUser) : Bool :=
  (u.username == p.username) ||
  (match p.phone with
   | some s => if s == "" then true else u.phone == some s
   | none => true) ||
  (match p.email with
   | some s => if s == "" then true else u.email == some s
   | none => true)

/-- Endpoint `POST /auth/signup` on a configured database (main.py `signup`).
The `User(...)` pydantic construction enforces `min_length=3, max_length=32`
on the username; a violation escapes the handler as an internal error. -/
def signupCore (st : Store) (p : SignupRequest) : ApiResult SignupOk × Store :=
  if p.username == "" || p.password == "" then
    (.error 400 "Username and password required", st)
  else if (st.users.find? (signupConflictHit p)).isSome then
    (.error 409 "Account already exists", st)
  else if !(decide (3 ≤ p.username.length) && decide (p.username.length ≤ 32)) then
    (.error 500 "Internal Server Error", st)
  else
    let u : StoredUser :=
      { oid := st.nextId, username := p.username, email := p.email,
        phone := p.phone, password_hash := bcrypt_hash p.password,
        name := p.name, is_active := true, is_admin := false }
    (.ok { id := oidToString st.nextId, username := p.username },
     { st with users := st.users ++ [u], nextId := st.nextId + 1 })

/-- Endpoint `POST /auth/signup` including the database-availability precondition. -/
def signup (db : Option Store) (p : SignupRequest) : ApiResult SignupOk × Option Store :=
  match db with
  | none => (.error 500 "Database not configured", none)
  | some st => ((signupCore st p).1, some (signupCore st p).2)

/-- The login query: each truthy identifier contributes an exact-match
filter; absent/falsy ones contribute nothing. -/
def loginMatches (p : LoginRequest) (u : StoredUser) : Bool :=
  (match p.username with
   | some s => if s == "" then true else u.username == s
   | none => true) &&
  (match p.phone with
   | some s => if s == "" then true else u.phone == some s
   | none => true)

/-- Endpoint `POST /auth/login` (main.py `login`). -/
def login (db : Option Store) (p : LoginRequest) : ApiResult LoginOk :=
  match db with
  | none => .error 500 "Database not configured"
  | some st =>
    if p.password == "" then .error 400 "Password required"
    else if !(truthy p.username || truthy p.phone) then
      .error 400 "Provide username or phone"
    else
      match st.users.find? (loginMatches p) with
      | none => .error 401 "Invalid credentials"
      | some u =>
        if bcrypt_verify p.password u.password_hash then
          .ok { id := oidToString u.oid, username := u.username, name := u.name }
        else .error 401 "Invalid credentials"

/-- First value stored under a key, Python `d[k]` / `k in d`. -/
def lookupKey (d : Doc) (k : String) : Option Val :=
  match d with
  | [] => none
  | (a, v) :: t => if a == k then some v else lookupKey t k

/-- Remove every entry with the given key (Python `d.pop(k)`). -/
def eraseKey (d : Doc) (k : String) : Doc := d.filter (fun kv => !(kv.1 == k))

/-- Python `d[k] = v`: update the entry in place when the key exists
(dict keys are unique, so the first hit is the entry), else append. -/
def setKey (d : Doc) (k : String) (v : Val) : Doc :=
  match d with
  | [] => [(k, v)]
  | (a, b) :: t => if a == k then (k, v) :: t else (a, b) :: setKey t k v

/-- Python `str(...)` on the values an `_id` can hold; in this application
`_id` is always an object id. -/
def valStr : Val → String
  | .voidv n => oidToString n
  | .vstr s => s
  | _ => ""

/-- main.py `to_str_id`: replace the internal `_id` by a string-typed `id`. -/
def to_str_id (d : Doc) : Doc :=
  match lookupKey d "_id" with
  | none => d
  | some v => setKey (eraseKey d "_id") "id" (.vstr (valStr v))

def optStrVal : Option String → Val
  | some s => .vstr s
  | none => .vnull

/-- A category record as the document `find` returns (`_id` first). -/
def categoryDoc (c : StoredCategory) : Doc :=
  [("_id", .voidv c.oid), ("name", .vstr c.name), ("slug", .vstr c.slug)]

/-- A product record as the document `find` returns. -/
def productDoc (p : StoredProduct) : Doc :=
  [("_id", .voidv p.oid), ("title", .vstr p.title),
   ("description", optStrVal p.description), ("price", .vnum p.price),
   ("category", .vstr p.category), ("image", optStrVal p.image),
   ("rating", match p.rating with | some q => .vnum q | none => .vnull),
   ("rating_count", match p.rating_count with | some n => .vint n | none => .vnull),
   ("in_stock", .vbool p.in_stock)]

/-- Endpoint `GET /categories`: when the handle is unset the handler short-circuits to
an empty list; otherwise all categories, id-projected, in storage order. -/
def list_categories (db : Option Store) : List Doc :=
  match db with
  | none => []
  | some st => (st.categories.map categoryDoc).map to_str_id

/-- main.py `CreateCategory`. -/
structure CreateCategory where
  name : String
  slug : String
  deriving DecidableEq, Repr

/-- Endpoint `POST /categories` (main.py `create_category`). -/
def create_category (db : Option Store) (p : CreateCategory) :
    ApiResult CreateOk × Option Store :=
  match db with
  | none => (.error 500 "Database not configured", none)
  | some st =>
    if st.categories.any (fun c => c.slug == p.slug) then
      (.error 409 "Category exists", some st)
    else
      (.ok { id := oidToString st.nextId },
       some { st with
          categories := st.categories ++ [{ oid := st.nextId, name := p.name, slug := p.slug }],
          nextId := st.nextId + 1 })

def lowerChars (s : String) : List Char := s.data.map Char.toLower

def startsWithChars : List Char → List Char → Bool
  | [], _ => true
  | _ :: _, [] => false
  | a :: as, b :: bs => a == b && startsWithChars as bs

/-- Substring test `containsChars hay needle`: the needle occurs contiguously in the hay. -/
def containsChars : List Char → List Char → Bool
  | hay, needle =>
    match hay with
    | [] => needle.isEmpty
    | _ :: t => startsWithChars needle hay || containsChars t needle

/-- Modelled from the spec: the store's `{"$regex": q, "$options": "i"}`
filter, which for the literal query strings this service passes through is a
case-insensitive substring match (spec §4.2). -/
def ciContains (hay needle : String) : Bool :=
  containsChars (lowerChars hay) (lowerChars needle)

/-- The `GET /products` filter document applied to one product: a truthy `q`
contributes a case-insensitive match against title or description, a truthy
`category` an exact match; both are ANDed. A regex filter on the absent
(`null`) description matches nothing. -/
def productMatches (q category : Option String) (p : StoredProduct) : Bool :=
  (match q with
   | some s =>
     if s == "" then true
     else ciContains p.title s ||
       (match p.description with | some d => ciContains d s | none => false)
   | none => true) &&
  (match category with
   | some c => if c == "" then true else p.category == c
   | none => true)

/-- Endpoint `GET /products` (main.py `list_products`): filter, then `skip`, then
`limit`, then id projection. When the handle is unset it returns `[]`. -/
def list_products (db : Option Store) (q category : Option String)
    (limit skip : ℕ) : List Doc :=
  match db with
  | none => []
  | some st =>
    (((st.products.filter (productMatches q category)).drop skip).take limit).map
      (fun p => to_str_id (productDoc p))

/-- The `find_one({"_id": oid})` lookup of `get_product`; with no database
configured the handler uses `None` in place of a found document. -/
def productLookup (db : Option Store) (pid : String) : Option StoredProduct :=
  match db with
  | none => none
  | some st => st.products.find? (fun p => p.oid == parseHexNat pid)

/-- Endpoint `GET /products/{id}` (main.py `get_product`). -/
def get_product (db : Option Store) (pid : String) : ApiResult Doc :=
  if validObjectId pid then
    match productLookup db pid with
    | none => .error 404 "Not found"
    | some p => .ok (to_str_id (productDoc p))
  else .error 400 "Invalid id"

/-- main.py `CreateProduct`. -/
structure CreateProduct where
  title : String
  description : Option String
  price : ℚ
  category : String
  image : Option String
  deriving DecidableEq, Repr

/-- Endpoint `POST /products` (main.py `create_product`).  `Product(...)` enforces
`price ≥ 0`; a violation escapes the handler as an internal error.  Defaults:
rating 4.5, rating_count 0, in_stock true. -/
def create_product (db : Option Store) (p : CreateProduct) :
    ApiResult CreateOk × Option Store :=
  match db with
  | none => (.error 500 "Database not configured", none)
  | some st =>
    if decide (p.price < 0) then (.error 500 "Internal Server Error", some st)
    else
      let prod : StoredProduct :=
        { oid := st.nextId, title := p.title, description := p.description,
          price := p.price, category := p.category, image := p.image,
          rating := some ((9 : ℚ) / 2), rating_count := some 0, in_stock := true }
      (.ok { id := oidToString st.nextId },
       some { st with products := st.products ++ [prod], nextId := st.nextId + 1 })

/-- main.py `CheckoutRequest`. -/
structure CheckoutRequest where
  user_id : String
  items : List OrderItem
  address : String
  deriving DecidableEq, Repr

structure CheckoutOk where
  order_id : String
  total : ℚ
  status : String
  deriving DecidableEq, Repr

/-- Order total `sum(item.price * item.quantity for item in payload.items)`. -/
def orderTotal (items : List OrderItem) : ℚ :=
  (items.map (fun i => i.price * (i.quantity : ℚ))).sum

/-- Endpoint `POST /orders/checkout` (main.py `checkout`). -/
def checkout (db : Option Store) (p : CheckoutRequest) :
    ApiResult CheckoutOk × Option Store :=
  match db with
  | none => (.error 500 "Database not configured", none)
  | some st =>
    let o : StoredOrder :=
      { oid := st.nextId, user_id := p.user_id, items := p.items,
        total := orderTotal p.items, address := p.address, status := "placed" }
    (.ok { order_id := oidToString st.nextId, total := orderTotal p.items,
           status := "placed" },
     some { st with orders := st.orders ++ [o], nextId := st.nextId + 1 })

/-- The fixed category seed list of `seed` (name, slug). -/
def baseCategories : List (String × String) :=
  [("Electronics", "electronics"), ("Books", "books"),
   ("Home", "home"), ("Fashion", "fashion")]

/-- The fixed product seed list of `seed`: title, description, price,
category, image. -/
def sampleProducts : List (String × String × ℚ × String × String) :=
  [("Noise-Canceling Headphones", "Over-ear, Bluetooth 5.3, 30h battery",
    (12999 : ℚ) / 100, "Electronics",
    "https://images.unsplash.com/photo-1517495306984-937bcd3c5b86"),
   ("Smartphone Stand", "Adjustable aluminum desk stand",
    (1999 : ℚ) / 100, "Electronics",
    "https://images.unsplash.com/photo-1510557880182-3d4d3cba35a5"),
   ("Bestselling Novel", "Paperback, 352 pages",
    (1249 : ℚ) / 100, "Books",
    "https://images.unsplash.com/photo-1512820790803-83ca734da794"),
   ("Cozy Throw Blanket", "Ultra-soft microfiber, 50x60",
    (2495 : ℚ) / 100, "Home",
    "https://images.unsplash.com/photo-1499933374294-4584851497cc"),
   ("Classic T-Shirt", "100% cotton, unisex fit",
    (1499 : ℚ) / 100, "Fashion",
    "https://images.unsplash.com/photo-1512436991641-6745cdb1723f")]

/-- One iteration of seed's category loop: insert unless the slug exists. -/
def catSeedStep (st : Store) (c : String × String) : Store :=
  if st.categories.any (fun k => k.slug == c.2) then st
  else
    let rec0 : StoredCategory := { oid := st.nextId, name := c.1, slug := c.2 }
    { st with categories := st.categories ++ [rec0], nextId := st.nextId + 1 }

/-- One iteration of seed's product loop: insert (through the `Product`
model, so with defaults applied) unless the title exists. -/
def prodSeedStep (st : Store) (p : String × String × ℚ × String × String) : Store :=
  if st.products.any (fun k => k.title == p.1) then st
  else
    let rec0 : StoredProduct :=
      { oid := st.nextId, title := p.1, description := some p.2.1,
        price := p.2.2.1, category := p.2.2.2.1, image := some p.2.2.2.2,
        rating := some ((9 : ℚ) / 2), rating_count := some 0, in_stock := true }
    { st with products := st.products ++ [rec0], nextId := st.nextId + 1 }

/-- Seed's demo-user step: insert the demo user unless one exists. -/
def userSeedStep (st : Store) : Store :=
  if st.users.any (fun u => u.username == "demo") then st
  else
    let rec0 : StoredUser :=
      { oid := st.nextId, username := "demo", email := some "demo@example.com",
        phone := none, password_hash := bcrypt_hash "demo123",
        name := some "Demo User", is_active := true, is_admin := false }
    { st with users := st.users ++ [rec0], nextId := st.nextId + 1 }

/-- The state transformation of `POST /seed` on a configured database. -/
def seedCore (st : Store) : Store :=
  userSeedStep (sampleProducts.foldl prodSeedStep (baseCategories.foldl catSeedStep st))

/-- Endpoint `POST /seed` (main.py `seed`). -/
def seed (db : Option Store) : ApiResult String × Option Store :=
  match db with
  | none => (.error 500 "Database not configured", none)
  | some st => (.ok "seeded", some (seedCore st))

end Amazons

namespace Amazons

/-! ## Concrete states and requests used in evaluations -/

/-- A freshly initialised, empty store. -/
def emptyStore : Store := ⟨[], [], [], [], 0⟩

/-- A store holding one user, `alice`, signed up without phone or email. -/
def aliceStore : Store :=
  ⟨[⟨0, "alice", none, none, bcrypt_hash "alicepw", none, true, false⟩], [], [], [], 1⟩

/-- A signup for `bob` with neither phone nor email. -/
def bobSignup : SignupRequest := ⟨"bob", "bobpw", none, none, none⟩

/-- A checkout of 2 × 10 + 1 × 5, the worked example of the spec. -/
def sampleCheckout : CheckoutRequest :=
  ⟨"u1", [⟨"p1", "A", 10, 2, none⟩, ⟨"p2", "B", 5, 1, none⟩], "addr"⟩

/-- A checkout whose single line item carries a negative price. -/
def negCheckout : CheckoutRequest := ⟨"u1", [⟨"p1", "Bad", -5, 1, none⟩], "addr"⟩

/-- A signup whose username has fewer than 3 characters. -/
def abSignup : SignupRequest := ⟨"ab", "pw", none, none, none⟩

/-! ## C1 -/

/-- C1: the combined existence check is broken.  When phone and email are
omitted, the falsy branches contribute the empty filter `{}` to the `$or`
list, and `{}` matches every stored document: a signup for `bob` against a
store holding only `alice` — no username, phone or email in common — is
rejected with ConflictError 409, although the spec (and the code's own
comment "Ensure unique username/phone/email") require it to succeed. -/
theorem signup_conflict_empty_filter_bug :
    (signup (some aliceStore) bobSignup).1 = .error 409 "Account already exists" ∧
    bobSignup.phone = none ∧ bobSignup.email = none ∧
    (∀ u ∈ aliceStore.users, u.username ≠ bobSignup.username) := by
  refine ⟨by decide, rfl, rfl, by decide⟩

/-! ## C2 -/

/-- C2: checkout returns and persists a total equal to the sum of the
client-supplied `price × quantity` over the submitted items, persists the
order with status "placed", and answers `{order_id, total, status}`; in
particular items `[{price 10, quantity 2}, {price 5, quantity 1}]` give
total 25 and status "placed". -/
theorem checkout_total_and_status :
    (∀ (st : Store) (p : CheckoutRequest), ∃ st2 : Store,
      checkout (some st) p =
        (.ok { order_id := oidToString st.nextId,
               total := (p.items.map (fun i => i.price * (i.quantity : ℚ))).sum,
               status := "placed" }, some st2) ∧
      ∃ o : StoredOrder, st2.orders = st.orders ++ [o] ∧
        o.total = (p.items.map (fun i => i.price * (i.quantity : ℚ))).sum ∧
        o.status = "placed" ∧ o.items = p.items) ∧
    (checkout (some emptyStore) sampleCheckout).1 =
      .ok { order_id := oidToString 0, total := 25, status := "placed" } := by
  constructor
  · intro st p
    exact ⟨_, rfl, _, rfl, rfl, rfl, rfl⟩
  · simp [checkout, orderTotal, sampleCheckout, emptyStore]
    norm_num

/-! ## C4 -/

/-- C4 counterexample: checkout accepts and persists an order whose item has
a negative price — `OrderItem` (unlike `Product`) declares no `ge=0` bound on
`price` or `quantity`, so no non-negativity invariant holds for orders. -/
theorem checkout_negative_item_cex :
    ∃ st2, (checkout (some emptyStore) negCheckout).2 = some st2 ∧
      (checkout (some emptyStore) negCheckout).1 =
        .ok { order_id := oidToString 0, total := -5, status := "placed" } ∧
      ∃ o ∈ st2.orders, ∃ i ∈ o.items, i.price < 0 := by
  refine ⟨_, rfl, ?_, ?_⟩
  · simp [checkout, orderTotal, negCheckout, emptyStore]
  · simp [checkout, emptyStore, negCheckout]

/-- C4 (amended): checkout performs no sign validation at all: every request
is accepted, and the submitted items — negative prices or quantities
included — are persisted verbatim in the stored order. -/
theorem checkout_accepts_unvalidated_items (st : Store) (p : CheckoutRequest) :
    ∃ st2 o, checkout (some st) p =
        (.ok { order_id := oidToString st.nextId, total := orderTotal p.items,
               status := "placed" }, some st2) ∧
      st2.orders = st.orders ++ [o] ∧ o.items = p.items := by
  exact ⟨_, _, rfl, rfl, rfl⟩

/-! ## C10 -/

/-- C10: with the database handle unset, the read endpoints GET /categories
and GET /products answer an empty array, while every mutating endpoint fails
with the 500 "Database not configured" error. -/
theorem unset_db_reads_return_empty :
    list_categories none = [] ∧
    (∀ q c limit skip, list_products none q c limit skip = []) ∧
    (∀ p, (signup none p).1 = .error 500 "Database not configured") ∧
    (∀ p, (create_category none p).1 = .error 500 "Database not configured") ∧
    (∀ p, (create_product none p).1 = .error 500 "Database not configured") ∧
    (∀ p, (checkout none p).1 = .error 500 "Database not configured") ∧
    (seed none).1 = .error 500 "Database not configured" :=
  ⟨rfl, fun _ _ _ _ => rfl, fun _ => rfl, fun _ => rfl, fun _ => rfl, fun _ => rfl, rfl⟩

end Amazons

namespace Amazons

/-! ## C6 -/

/-- C6: getProduct has exactly three outcomes, mutually exclusive and
exhaustive: 400 exactly on a malformed id, 404 exactly on a well-formed id
matching no stored product (an unset database holds no products), and
otherwise the matching product with its identifier projected to a string
`id`. -/
theorem get_product_trichotomy (db : Option Store) (pid : String) :
    (get_product db pid = .error 400 "Invalid id" ↔ validObjectId pid = false) ∧
    (get_product db pid = .error 404 "Not found" ↔
       validObjectId pid = true ∧ productLookup db pid = none) ∧
    (∀ d, get_product db pid = .ok d ↔
       validObjectId pid = true ∧
       ∃ p, productLookup db pid = some p ∧ d = to_str_id (productDoc p)) ∧
    (get_product db pid = .error 400 "Invalid id" ∨
     get_product db pid = .error 404 "Not found" ∨
     ∃ d, get_product db pid = .ok d) := by
  cases hv : validObjectId pid <;>
    cases hl : productLookup db pid <;>
      simp [get_product, hv, hl, eq_comm]

/-! ## C7 -/

/-- C7 counterexample: the signup `{username := "ab", password := "pw"}` on an
empty store has a non-empty username and password and no conflicting user, yet
it does not succeed: the `User` schema's `min_length=3` rejects the username
inside the handler, which surfaces as an internal error, not as a created
user. -/
theorem signup_short_username_cex :
    (signup (some emptyStore) abSignup).1 = .error 500 "Internal Server Error" ∧
    abSignup.username ≠ "" ∧ abSignup.password ≠ "" ∧
    (∀ u ∈ emptyStore.users, signupConflictHit abSignup u = false) := by
  decide

/-- C7 (amended): signup fails with 400 exactly when username or password is
empty; when moreover the username is 3–32 characters long and no stored user
matches the combined existence check, it succeeds: it hashes the password,
inserts the user with `is_active = true` and `is_admin = false`, and returns
the string id with the username. -/
theorem signup_validates_and_inserts (st : Store) (p : SignupRequest) :
    ((signup (some st) p).1 = .error 400 "Username and password required" ↔
      (p.username = "" ∨ p.password = "")) ∧
    ((p.username ≠ "" ∧ p.password ≠ "" ∧
        3 ≤ p.username.length ∧ p.username.length ≤ 32 ∧
        ∀ u ∈ st.users, signupConflictHit p u = false) →
      ∃ u : StoredUser,
        signup (some st) p =
          (.ok { id := oidToString st.nextId, username := p.username },
           some { st with users := st.users ++ [u], nextId := st.nextId + 1 }) ∧
        u.username = p.username ∧ u.password_hash = bcrypt_hash p.password ∧
        u.is_active = true ∧ u.is_admin = false) := by
  constructor
  · by_cases hu : p.username = ""
    · simp [signup, signupCore, hu]
    · by_cases hp : p.password = ""
      · simp [signup, signupCore, hu, hp]
      · cases hfind : (st.users.find? (signupConflictHit p)).isSome <;>
          simp [signup, signupCore, hu, hp, hfind] <;>
          split <;> simp
  · rintro ⟨hu, hp, hl1, hl2, hnc⟩
    have hfind : st.users.find? (signupConflictHit p) = none :=
      List.find?_eq_none.mpr (fun u hmem => by simp [hnc u hmem])
    refine ⟨{ oid := st.nextId, username := p.username, email := p.email,
              phone := p.phone, password_hash := bcrypt_hash p.password,
              name := p.name, is_active := true, is_admin := false },
            ?_, rfl, rfl, rfl, rfl⟩
    simp [signup, signupCore, hu, hp, hfind, hl1, hl2]

/-- A valid signup used to witness the amended C7 statement. -/
def carolSignup : SignupRequest := ⟨"carol", "cpw", none, none, none⟩

/-- C7 witness: on the empty store, `carol`'s signup is accepted and inserts
the hashed, active, non-admin user. -/
theorem signup_validates_and_inserts_witness :
    ∃ u : StoredUser,
      signup (some emptyStore) carolSignup =
        (.ok { id := oidToString 0, username := "carol" },
         some { emptyStore with users := emptyStore.users ++ [u], nextId := 1 }) ∧
      u.username = "carol" ∧ u.password_hash = bcrypt_hash "cpw" ∧
      u.is_active = true ∧ u.is_admin = false :=
  (signup_validates_and_inserts emptyStore carolSignup).2 (by decide)

end Amazons

namespace Amazons

/-! ## Dictionary lemmas for the id projection -/

lemma lookupKey_eraseKey_self (d : Doc) (k : String) :
    lookupKey (eraseKey d k) k = none := by
  induction d with
  | nil => rfl
  | cons kv t ih =>
    rcases kv with ⟨a, b⟩
    by_cases ha : a = k
    · rw [show eraseKey ((a, b) :: t) k = eraseKey t k by
        simp [eraseKey, List.filter_cons, ha]]
      exact ih
    · rw [show eraseKey ((a, b) :: t) k = (a, b) :: eraseKey t k by
        simp [eraseKey, List.filter_cons, ha]]
      simpa [lookupKey, show (a == k) = false by simp [ha]] using ih

lemma lookupKey_eraseKey_ne (d : Doc) (k k' : String) (h : k' ≠ k) :
    lookupKey (eraseKey d k) k' = lookupKey d k' := by
  induction d with
  | nil => rfl
  | cons kv t ih =>
    rcases kv with ⟨a, b⟩
    by_cases ha : a = k
    · rw [show eraseKey ((a, b) :: t) k = eraseKey t k by
        simp [eraseKey, List.filter_cons, ha]]
      rw [ih]
      simp [lookupKey, show (a == k') = false by simp [ha, Ne.symm h]]
    · rw [show eraseKey ((a, b) :: t) k = (a, b) :: eraseKey t k by
        simp [eraseKey, List.filter_cons, ha]]
      simp only [lookupKey]
      rw [ih]

lemma lookupKey_setKey_self (d : Doc) (k : String) (v : Val) :
    lookupKey (setKey d k v) k = some v := by
  induction d with
  | nil => simp [setKey, lookupKey]
  | cons kv t ih =>
    rcases kv with ⟨a, b⟩
    by_cases ha : (a == k) = true
    · simp [setKey, lookupKey, ha]
    · simp only [setKey, ha, if_false, Bool.false_eq_true]
      simpa [lookupKey, ha] using ih

lemma lookupKey_setKey_ne (d : Doc) (k k' : String) (v : Val) (h : k' ≠ k) :
    lookupKey (setKey d k v) k' = lookupKey d k' := by
  induction d with
  | nil => simp [setKey, lookupKey, show (k == k') = false by simp [Ne.symm h]]
  | cons kv t ih =>
    rcases kv with ⟨a, b⟩
    by_cases ha : (a == k) = true
    · have haeq : a = k := by simpa using ha
      simp [setKey, lookupKey, ha,
        show (k == k') = false by simp [Ne.symm h],
        show (a == k') = false by simp [haeq, Ne.symm h]]
    · simp only [setKey, ha, if_false, Bool.false_eq_true]
      simp only [lookupKey]
      rw [ih]

end Amazons

namespace Amazons

/-! ## C9 -/

/-- C9: every document a list/get endpoint returns has the internal `_id`
removed and replaced by a string-typed `id` holding the stringified
identifier, with every other field unchanged; the same `to_str_id`
projection is what listCategories, listProducts and getProduct all apply
to the stored documents (whose identifier field is `_id`). -/
theorem id_projection_uniform :
    (∀ (d : Doc) (v : Val), lookupKey d "_id" = some v →
      lookupKey (to_str_id d) "_id" = none ∧
      lookupKey (to_str_id d) "id" = some (.vstr (valStr v)) ∧
      ∀ k, k ≠ "_id" → k ≠ "id" → lookupKey (to_str_id d) k = lookupKey d k) ∧
    (∀ st : Store, list_categories (some st) =
      st.categories.map (fun c => to_str_id (categoryDoc c))) ∧
    (∀ db q c limit skip, ∀ d ∈ list_products db q c limit skip,
      ∃ p : StoredProduct, d = to_str_id (productDoc p)) ∧
    (∀ db pid d, get_product db pid = .ok d →
      ∃ p : StoredProduct, d = to_str_id (productDoc p)) ∧
    (∀ c : StoredCategory, lookupKey (categoryDoc c) "_id" = some (.voidv c.oid)) ∧
    (∀ p : StoredProduct, lookupKey (productDoc p) "_id" = some (.voidv p.oid)) ∧
    (∀ n : ℕ, valStr (.voidv n) = oidToString n) := by
  refine ⟨?_, ?_, ?_, ?_, fun c => rfl, fun p => rfl, fun n => rfl⟩
  · intro d v hv
    have hform : to_str_id d = setKey (eraseKey d "_id") "id" (.vstr (valStr v)) := by
      unfold to_str_id
      rw [hv]
    refine ⟨?_, ?_, ?_⟩
    · rw [hform, lookupKey_setKey_ne _ _ _ _ (by decide), lookupKey_eraseKey_self]
    · rw [hform, lookupKey_setKey_self]
    · intro k h1 h2
      rw [hform, lookupKey_setKey_ne _ _ _ _ h2, lookupKey_eraseKey_ne _ _ _ h1]
  · intro st
    simp [list_categories, List.map_map, Function.comp]
  · intro db q c limit skip d hd
    cases db with
    | none => simp [list_products] at hd
    | some st =>
      rcases List.mem_map.mp hd with ⟨p, _, rfl⟩
      exact ⟨p, rfl⟩
  · intro db pid d hd
    unfold get_product at hd
    by_cases hv : validObjectId pid = true
    · rw [if_pos hv] at hd
      cases hl : productLookup db pid with
      | none => rw [hl] at hd; cases hd
      | some p =>
        rw [hl] at hd
        cases hd
        exact ⟨p, rfl⟩
    · rw [if_neg hv] at hd
      cases hd

/-- A concrete stored document used to witness the projection properties. -/
def sampleDoc : Doc :=
  [("_id", .voidv 7), ("name", .vstr "Electronics"), ("slug", .vstr "electronics")]

/-- C9 witness: on a concrete category document the projection drops `_id`,
adds the stringified `id`, and leaves `slug` untouched. -/
theorem id_projection_uniform_witness :
    lookupKey (to_str_id sampleDoc) "_id" = none ∧
    lookupKey (to_str_id sampleDoc) "id" = some (.vstr (valStr (.voidv 7))) ∧
    lookupKey (to_str_id sampleDoc) "slug" = lookupKey sampleDoc "slug" := by
  have h := id_projection_uniform.1 sampleDoc (.voidv 7) (by decide)
  exact ⟨h.1, h.2.1, h.2.2 "slug" (by decide) (by decide)⟩

/-! ## C5 -/

/-- C5: every product listProducts returns satisfies the supplied filters —
a case-insensitive substring hit of `q` in title or description when `q` is
given, exact category equality when `category` is given, both together when
both are — and the response is at most `limit` documents taken after
skipping the first `skip` matches, id-projected. -/
theorem list_products_filters (st : Store) (q category : Option String)
    (limit skip : ℕ) :
    list_products (some st) q category limit skip =
      (((st.products.filter (productMatches q category)).drop skip).take limit).map
        (fun p => to_str_id (productDoc p)) ∧
    (list_products (some st) q category limit skip).length ≤ limit ∧
    (∀ d ∈ list_products (some st) q category limit skip, ∃ p ∈ st.products,
      d = to_str_id (productDoc p) ∧
      (∀ s, q = some s → s ≠ "" →
        (ciContains p.title s = true ∨
         ∃ ds, p.description = some ds ∧ ciContains ds s = true)) ∧
      (∀ c, category = some c → c ≠ "" → p.category = c)) := by
  refine ⟨rfl, ?_, ?_⟩
  · rw [show list_products (some st) q category limit skip =
        (((st.products.filter (productMatches q category)).drop skip).take limit).map
          (fun p => to_str_id (productDoc p)) from rfl]
    rw [List.length_map, List.length_take]
    exact min_le_left _ _
  · intro d hd
    rcases List.mem_map.mp hd with ⟨p, hpmem, rfl⟩
    have h2 : p ∈ st.products.filter (productMatches q category) :=
      List.mem_of_mem_drop (List.mem_of_mem_take hpmem)
    have h3 := List.mem_filter.mp h2
    refine ⟨p, h3.1, rfl, ?_, ?_⟩
    · intro s hq hs
      have hm := h3.2
      rw [hq] at hm
      simp only [productMatches, Bool.and_eq_true] at hm
      have hm1 := hm.1
      rw [if_neg (by simp [hs]), Bool.or_eq_true] at hm1
      rcases hm1 with h | h
      · exact Or.inl h
      · cases hdesc : p.description with
        | none => simp [hdesc] at h
        | some ds =>
          rw [hdesc] at h
          exact Or.inr ⟨ds, rfl, by simpa using h⟩
    · intro c hc hcne
      have hm := h3.2
      rw [hc] at hm
      simp only [productMatches, Bool.and_eq_true] at hm
      have hm2 := hm.2
      rw [if_neg (by simp [hcne])] at hm2
      exact beq_iff_eq.mp hm2

/-- A stored product whose title contains "Headphones". -/
def hpProduct : StoredProduct :=
  ⟨0, "Noise-Canceling Headphones", some "Over-ear headphones", 10,
   "Electronics", none, some 4, some 0, true⟩

/-- A store with one matching and one non-matching product for `q`
= "headphones". -/
def headphonesStore : Store :=
  ⟨[], [],
   [hpProduct,
    ⟨1, "Smartphone Stand", some "Adjustable desk stand", 5, "Electronics",
     none, some 4, some 0, true⟩],
   [], 2⟩

/-- C5 witness: the document returned for `q = "headphones"` comes from a
stored product whose title case-insensitively contains the query. -/
theorem list_products_filters_witness :
    ∃ p ∈ headphonesStore.products,
      to_str_id (productDoc hpProduct) = to_str_id (productDoc p) ∧
      (∀ s, (some "headphones" : Option String) = some s → s ≠ "" →
        (ciContains p.title s = true ∨
         ∃ ds, p.description = some ds ∧ ciContains ds s = true)) ∧
      (∀ c, (none : Option String) = some c → c ≠ "" → p.category = c) :=
  (list_products_filters headphonesStore (some "headphones") none 20 0).2.2
    (to_str_id (productDoc hpProduct)) (by decide)

end Amazons

namespace Amazons

/-! ## C3 -/

/-- C3: with a non-empty password and at least one truthy identifier, and
under the data-model invariants (usernames unique; phones unique when
present), login succeeds — returning the matched user's id, username and
name — exactly when some stored user matches every supplied identifier and
the password verifies against that user's stored hash; in every other case
it answers the same generic 401 "Invalid credentials". -/
theorem login_succeeds_iff (st : Store) (p : LoginRequest)
    (hpw : p.password ≠ "")
    (hid : truthy p.username = true ∨ truthy p.phone = true)
    (hU : ∀ u ∈ st.users, ∀ v ∈ st.users, u.username = v.username → u = v)
    (hP : ∀ u ∈ st.users, ∀ v ∈ st.users, u.phone ≠ none → u.phone = v.phone → u = v) :
    ((∃ u ∈ st.users, loginMatches p u = true ∧
        bcrypt_verify p.password u.password_hash = true) ↔
      ∃ u ∈ st.users, loginMatches p u = true ∧
        bcrypt_verify p.password u.password_hash = true ∧
        login (some st) p = .ok ⟨oidToString u.oid, u.username, u.name⟩) ∧
    ((¬ ∃ u ∈ st.users, loginMatches p u = true ∧
        bcrypt_verify p.password u.password_hash = true) →
      login (some st) p = .error 401 "Invalid credentials") := by
  have huniq : ∀ u ∈ st.users, ∀ v ∈ st.users,
      loginMatches p u = true → loginMatches p v = true → u = v := by
    rcases hid with h | h
    · cases hn : p.username with
      | none => rw [hn] at h; cases h
      | some s =>
        rw [hn] at h
        have hs : s ≠ "" := by simpa [truthy] using h
        intro u hu v hv hmu hmv
        simp only [loginMatches, hn, Bool.and_eq_true] at hmu hmv
        have h1 : u.username = s := by
          have hx := hmu.1
          rw [if_neg (by simp [hs])] at hx
          exact beq_iff_eq.mp hx
        have h2 : v.username = s := by
          have hx := hmv.1
          rw [if_neg (by simp [hs])] at hx
          exact beq_iff_eq.mp hx
        exact hU u hu v hv (h1.trans h2.symm)
    · cases hn : p.phone with
      | none => rw [hn] at h; cases h
      | some s =>
        rw [hn] at h
        have hs : s ≠ "" := by simpa [truthy] using h
        intro u hu v hv hmu hmv
        simp only [loginMatches, hn, Bool.and_eq_true] at hmu hmv
        have h1 : u.phone = some s := by
          have hx := hmu.2
          rw [if_neg (by simp [hs])] at hx
          exact beq_iff_eq.mp hx
        have h2 : v.phone = some s := by
          have hx := hmv.2
          rw [if_neg (by simp [hs])] at hx
          exact beq_iff_eq.mp hx
        exact hP u hu v hv (by simp [h1]) (h1.trans h2.symm)
  have hpw' : (p.password == "") = false := by simp [hpw]
  have hid' : (truthy p.username || truthy p.phone) = true := by
    rcases hid with h | h <;> simp [h]
  cases hfind : st.users.find? (loginMatches p) with
  | none =>
    have hnone : ∀ u ∈ st.users, ¬ (loginMatches p u = true) := by
      intro u hu
      simpa using List.find?_eq_none.mp hfind u hu
    constructor
    · constructor
      · rintro ⟨u, hu, hm, -⟩
        exact absurd hm (hnone u hu)
      · rintro ⟨u, hu, hm, -, -⟩
        exact absurd hm (hnone u hu)
    · intro _
      simp [login, hpw', hid', hfind]
  | some u =>
    have hu_mem : u ∈ st.users := List.mem_of_find?_eq_some hfind
    have hu_match : loginMatches p u = true := List.find?_some hfind
    by_cases hv : bcrypt_verify p.password u.password_hash = true
    · have hlogin : login (some st) p = .ok ⟨oidToString u.oid, u.username, u.name⟩ := by
        simp [login, hpw', hid', hfind, hv]
      constructor
      · constructor
        · rintro ⟨w, hw, hmw, hvw⟩
          exact ⟨u, hu_mem, hu_match, hv, hlogin⟩
        · rintro ⟨w, hw, hmw, hvw, -⟩
          exact ⟨w, hw, hmw, hvw⟩
      · intro hne
        exact absurd ⟨u, hu_mem, hu_match, hv⟩ hne
    · have hlogin : login (some st) p = .error 401 "Invalid credentials" := by
        simp [login, hpw', hid', hfind, hv]
      constructor
      · constructor
        · rintro ⟨w, hw, hmw, hvw⟩
          have hwu : w = u := huniq w hw u hu_mem hmw hu_match
          rw [hwu] at hvw
          exact absurd hvw hv
        · rintro ⟨w, hw, hmw, hvw, -⟩
          exact ⟨w, hw, hmw, hvw⟩
      · intro _
        exact hlogin

/-- The stored user used to witness the login characterisation. -/
def carolUser : StoredUser := ⟨0, "carol", none, none, bcrypt_hash "cpw", none, true, false⟩

/-- A store holding only `carol`. -/
def carolStore : Store := ⟨[carolUser], [], [], [], 1⟩

/-- Carol's correct login request. -/
def carolLogin : LoginRequest := ⟨some "carol", none, "cpw"⟩

/-- C3 witness: carol's login with the right password succeeds with her id,
username and name. -/
theorem login_succeeds_iff_witness :
    ∃ u ∈ carolStore.users, loginMatches carolLogin u = true ∧
      bcrypt_verify carolLogin.password u.password_hash = true ∧
      login (some carolStore) carolLogin = .ok ⟨oidToString u.oid, u.username, u.name⟩ :=
  (login_succeeds_iff carolStore carolLogin (by decide) (by decide) (by decide)
      (by decide)).1.mp ⟨carolUser, by decide, by decide, by decide⟩

end Amazons

namespace Amazons

/-! ## C8: counting seeded records -/

/-- Number of categories carrying a given slug. -/
def slugCountL (l : List StoredCategory) (s : String) : ℕ :=
  l.countP (fun k => k.slug == s)

/-- Number of products carrying a given title. -/
def titleCountL (l : List StoredProduct) (t : String) : ℕ :=
  l.countP (fun k => k.title == t)

/-- Number of users with username "demo". -/
def demoCountL (l : List StoredUser) : ℕ :=
  l.countP (fun u => u.username == "demo")

lemma any_slug_iff_pos (l : List StoredCategory) (s : String) :
    l.any (fun k => k.slug == s) = true ↔ 0 < slugCountL l s := by
  unfold slugCountL
  rw [List.any_eq_true, List.countP_pos]

lemma any_title_iff_pos (l : List StoredProduct) (t : String) :
    l.any (fun k => k.title == t) = true ↔ 0 < titleCountL l t := by
  unfold titleCountL
  rw [List.any_eq_true, List.countP_pos]

lemma any_demo_iff_pos (l : List StoredUser) :
    l.any (fun u => u.username == "demo") = true ↔ 0 < demoCountL l := by
  unfold demoCountL
  rw [List.any_eq_true, List.countP_pos]

/-! Category loop lemmas -/

lemma catSeedStep_users (st : Store) (c : String × String) :
    (catSeedStep st c).users = st.users := by
  unfold catSeedStep
  split <;> rfl

lemma catSeedStep_products (st : Store) (c : String × String) :
    (catSeedStep st c).products = st.products := by
  unfold catSeedStep
  split <;> rfl

lemma catSeedStep_orders (st : Store) (c : String × String) :
    (catSeedStep st c).orders = st.orders := by
  unfold catSeedStep
  split <;> rfl

lemma catSeedStep_noop (st : Store) (c : String × String)
    (h : st.categories.any (fun k => k.slug == c.2) = true) :
    catSeedStep st c = st := by
  unfold catSeedStep
  rw [if_pos h]

lemma catSeedStep_cats_append (st : Store) (c : String × String) :
    ∃ tl, (catSeedStep st c).categories = st.categories ++ tl := by
  unfold catSeedStep
  split
  · exact ⟨[], (List.append_nil _).symm⟩
  · exact ⟨_, rfl⟩

lemma catFold_users (l : List (String × String)) :
    ∀ st : Store, (l.foldl catSeedStep st).users = st.users := by
  induction l with
  | nil => intro st; rfl
  | cons a t ih => intro st; rw [List.foldl_cons, ih, catSeedStep_users]

lemma catFold_products (l : List (String × String)) :
    ∀ st : Store, (l.foldl catSeedStep st).products = st.products := by
  induction l with
  | nil => intro st; rfl
  | cons a t ih => intro st; rw [List.foldl_cons, ih, catSeedStep_products]

lemma catFold_orders (l : List (String × String)) :
    ∀ st : Store, (l.foldl catSeedStep st).orders = st.orders := by
  induction l with
  | nil => intro st; rfl
  | cons a t ih => intro st; rw [List.foldl_cons, ih, catSeedStep_orders]

lemma catFold_cats_append (l : List (String × String)) :
    ∀ st : Store, ∃ tl, (l.foldl catSeedStep st).categories = st.categories ++ tl := by
  induction l with
  | nil => intro st; exact ⟨[], (List.append_nil _).symm⟩
  | cons a t ih =>
    intro st
    rcases ih (catSeedStep st a) with ⟨t2, h2⟩
    rcases catSeedStep_cats_append st a with ⟨t1, h1⟩
    exact ⟨t1 ++ t2, by rw [List.foldl_cons, h2, h1, List.append_assoc]⟩

lemma catFold_noop (l : List (String × String)) :
    ∀ st : Store, (∀ c ∈ l, st.categories.any (fun k => k.slug == c.2) = true) →
      l.foldl catSeedStep st = st := by
  induction l with
  | nil => intro st _; rfl
  | cons a t ih =>
    intro st h
    rw [List.foldl_cons, catSeedStep_noop st a (h a (List.mem_cons_self a t))]
    exact ih st (fun c hc => h c (List.mem_cons_of_mem a hc))

lemma slugCount_catSeedStep_ne (st : Store) (c : String × String) (s : String)
    (h : c.2 ≠ s) :
    slugCountL (catSeedStep st c).categories s = slugCountL st.categories s := by
  unfold catSeedStep
  split
  · rfl
  · unfold slugCountL
    simp [List.countP_append, List.countP_cons, h]

lemma slugCount_catSeedStep_seeded (st : Store) (c : String × String)
    (h : slugCountL st.categories c.2 ≤ 1) :
    slugCountL (catSeedStep st c).categories c.2 = 1 := by
  unfold catSeedStep
  by_cases hany : (st.categories.any (fun k => k.slug == c.2)) = true
  · rw [if_pos hany]
    have hpos := (any_slug_iff_pos st.categories c.2).mp hany
    omega
  · rw [if_neg hany]
    have hz : slugCountL st.categories c.2 = 0 := by
      by_contra hnz
      exact hany ((any_slug_iff_pos st.categories c.2).mpr (Nat.pos_of_ne_zero hnz))
    unfold slugCountL at hz ⊢
    simp [List.countP_append, List.countP_cons, hz]

lemma slugCount_catSeedStep_of_pos (st : Store) (c : String × String) (s : String)
    (h : 0 < slugCountL st.categories s) :
    slugCountL (catSeedStep st c).categories s = slugCountL st.categories s := by
  by_cases he : c.2 = s
  · subst he
    rw [catSeedStep_noop st c ((any_slug_iff_pos st.categories c.2).mpr h)]
  · exact slugCount_catSeedStep_ne st c s he

lemma slugCount_catFold_of_pos (l : List (String × String)) :
    ∀ (st : Store) (s : String), 0 < slugCountL st.categories s →
      slugCountL (l.foldl catSeedStep st).categories s = slugCountL st.categories s := by
  induction l with
  | nil => intro st s _; rfl
  | cons a t ih =>
    intro st s h
    rw [List.foldl_cons]
    have h1 := slugCount_catSeedStep_of_pos st a s h
    rw [ih (catSeedStep st a) s (by rw [h1]; exact h), h1]

lemma slugCount_catFold_pos (l : List (String × String)) :
    ∀ (st : Store), ∀ c ∈ l, 0 < slugCountL (l.foldl catSeedStep st).categories c.2 := by
  induction l with
  | nil => intro st c hc; cases hc
  | cons a t ih =>
    intro st c hc
    rw [List.foldl_cons]
    rcases List.mem_cons.mp hc with rfl | hct
    · have hpos : 0 < slugCountL (catSeedStep st c).categories c.2 := by
        unfold catSeedStep
        by_cases hany : (st.categories.any (fun k => k.slug == c.2)) = true
        · rw [if_pos hany]
          exact (any_slug_iff_pos _ _).mp hany
        · rw [if_neg hany]
          unfold slugCountL
          simp [List.countP_append, List.countP_cons]
      rw [slugCount_catFold_of_pos t (catSeedStep st c) c.2 hpos]
      exact hpos
    · exact ih (catSeedStep st a) c hct

lemma slugCount_catFold_seeded (l : List (String × String)) :
    ∀ (st : Store) (s : String), s ∈ l.map Prod.snd →
      slugCountL st.categories s ≤ 1 →
      slugCountL (l.foldl catSeedStep st).categories s = 1 := by
  induction l with
  | nil => intro st s hs _; simp at hs
  | cons a t ih =>
    intro st s hs h1
    rw [List.foldl_cons]
    by_cases he : a.2 = s
    · subst he
      have hc1 := slugCount_catSeedStep_seeded st a h1
      rw [slugCount_catFold_of_pos t (catSeedStep st a) a.2 (by rw [hc1]; norm_num), hc1]
    · have hs' : s ∈ t.map Prod.snd := by
        rcases List.mem_map.mp hs with ⟨x, hx, hxs⟩
        rcases List.mem_cons.mp hx with rfl | hxt
        · exact absurd hxs he
        · exact List.mem_map.mpr ⟨x, hxt, hxs⟩
      exact ih (catSeedStep st a) s hs'
        (by rw [slugCount_catSeedStep_ne st a s he]; exact h1)

end Amazons

namespace Amazons

/-! Product loop lemmas -/

lemma prodSeedStep_users (st : Store) (p : String × String × ℚ × String × String) :
    (prodSeedStep st p).users = st.users := by
  unfold prodSeedStep
  split <;> rfl

lemma prodSeedStep_categories (st : Store) (p : String × String × ℚ × String × String) :
    (prodSeedStep st p).categories = st.categories := by
  unfold prodSeedStep
  split <;> rfl

lemma prodSeedStep_orders (st : Store) (p : String × String × ℚ × String × String) :
    (prodSeedStep st p).orders = st.orders := by
  unfold prodSeedStep
  split <;> rfl

lemma prodSeedStep_noop (st : Store) (p : String × String × ℚ × String × String)
    (h : st.products.any (fun k => k.title == p.1) = true) :
    prodSeedStep st p = st := by
  unfold prodSeedStep
  rw [if_pos h]

lemma prodSeedStep_prods_append (st : Store) (p : String × String × ℚ × String × String) :
    ∃ tl, (prodSeedStep st p).products = st.products ++ tl := by
  unfold prodSeedStep
  split
  · exact ⟨[], (List.append_nil _).symm⟩
  · exact ⟨_, rfl⟩

lemma prodFold_users (l : List (String × String × ℚ × String × String)) :
    ∀ st : Store, (l.foldl prodSeedStep st).users = st.users := by
  induction l with
  | nil => intro st; rfl
  | cons a t ih => intro st; rw [List.foldl_cons, ih, prodSeedStep_users]

lemma prodFold_categories (l : List (String × String × ℚ × String × String)) :
    ∀ st : Store, (l.foldl prodSeedStep st).categories = st.categories := by
  induction l with
  | nil => intro st; rfl
  | cons a t ih => intro st; rw [List.foldl_cons, ih, prodSeedStep_categories]

lemma prodFold_orders (l : List (String × String × ℚ × String × String)) :
    ∀ st : Store, (l.foldl prodSeedStep st).orders = st.orders := by
  induction l with
  | nil => intro st; rfl
  | cons a t ih => intro st; rw [List.foldl_cons, ih, prodSeedStep_orders]

lemma prodFold_prods_append (l : List (String × String × ℚ × String × String)) :
    ∀ st : Store, ∃ tl, (l.foldl prodSeedStep st).products = st.products ++ tl := by
  induction l with
  | nil => intro st; exact ⟨[], (List.append_nil _).symm⟩
  | cons a t ih =>
    intro st
    rcases ih (prodSeedStep st a) with ⟨t2, h2⟩
    rcases prodSeedStep_prods_append st a with ⟨t1, h1⟩
    exact ⟨t1 ++ t2, by rw [List.foldl_cons, h2, h1, List.append_assoc]⟩

lemma prodFold_noop (l : List (String × String × ℚ × String × String)) :
    ∀ st : Store, (∀ p ∈ l, st.products.any (fun k => k.title == p.1) = true) →
      l.foldl prodSeedStep st = st := by
  induction l with
  | nil => intro st _; rfl
  | cons a t ih =>
    intro st h
    rw [List.foldl_cons, prodSeedStep_noop st a (h a (List.mem_cons_self a t))]
    exact ih st (fun p hp => h p (List.mem_cons_of_mem a hp))

lemma titleCount_prodSeedStep_ne (st : Store) (p : String × String × ℚ × String × String)
    (t : String) (h : p.1 ≠ t) :
    titleCountL (prodSeedStep st p).products t = titleCountL st.products t := by
  unfold prodSeedStep
  split
  · rfl
  · unfold titleCountL
    simp [List.countP_append, List.countP_cons, h]

lemma titleCount_prodSeedStep_seeded (st : Store) (p : String × String × ℚ × String × String)
    (h : titleCountL st.products p.1 ≤ 1) :
    titleCountL (prodSeedStep st p).products p.1 = 1 := by
  unfold prodSeedStep
  by_cases hany : (st.products.any (fun k => k.title == p.1)) = true
  · rw [if_pos hany]
    have hpos := (any_title_iff_pos st.products p.1).mp hany
    omega
  · rw [if_neg hany]
    have hz : titleCountL st.products p.1 = 0 := by
      by_contra hnz
      exact hany ((any_title_iff_pos st.products p.1).mpr (Nat.pos_of_ne_zero hnz))
    unfold titleCountL at hz ⊢
    simp [List.countP_append, List.countP_cons, hz]

lemma titleCount_prodSeedStep_of_pos (st : Store) (p : String × String × ℚ × String × String)
    (t : String) (h : 0 < titleCountL st.products t) :
    titleCountL (prodSeedStep st p).products t = titleCountL st.products t := by
  by_cases he : p.1 = t
  · subst he
    rw [prodSeedStep_noop st p ((any_title_iff_pos st.products p.1).mpr h)]
  · exact titleCount_prodSeedStep_ne st p t he

lemma titleCount_prodFold_of_pos (l : List (String × String × ℚ × String × String)) :
    ∀ (st : Store) (t : String), 0 < titleCountL st.products t →
      titleCountL (l.foldl prodSeedStep st).products t = titleCountL st.products t := by
  induction l with
  | nil => intro st t _; rfl
  | cons a l2 ih =>
    intro st t h
    rw [List.foldl_cons]
    have h1 := titleCount_prodSeedStep_of_pos st a t h
    rw [ih (prodSeedStep st a) t (by rw [h1]; exact h), h1]

lemma titleCount_prodFold_pos (l : List (String × String × ℚ × String × String)) :
    ∀ (st : Store), ∀ p ∈ l, 0 < titleCountL (l.foldl prodSeedStep st).products p.1 := by
  induction l with
  | nil => intro st p hp; cases hp
  | cons a l2 ih =>
    intro st p hp
    rw [List.foldl_cons]
    rcases List.mem_cons.mp hp with rfl | hpt
    · have hpos : 0 < titleCountL (prodSeedStep st p).products p.1 := by
        unfold prodSeedStep
        by_cases hany : (st.products.any (fun k => k.title == p.1)) = true
        · rw [if_pos hany]
          exact (any_title_iff_pos _ _).mp hany
        · rw [if_neg hany]
          unfold titleCountL
          simp [List.countP_append, List.countP_cons]
      rw [titleCount_prodFold_of_pos l2 (prodSeedStep st p) p.1 hpos]
      exact hpos
    · exact ih (prodSeedStep st a) p hpt

lemma titleCount_prodFold_seeded (l : List (String × String × ℚ × String × String)) :
    ∀ (st : Store) (t : String), t ∈ l.map Prod.fst →
      titleCountL st.products t ≤ 1 →
      titleCountL (l.foldl prodSeedStep st).products t = 1 := by
  induction l with
  | nil => intro st t ht _; simp at ht
  | cons a l2 ih =>
    intro st t ht h1
    rw [List.foldl_cons]
    by_cases he : a.1 = t
    · subst he
      have hc1 := titleCount_prodSeedStep_seeded st a h1
      rw [titleCount_prodFold_of_pos l2 (prodSeedStep st a) a.1 (by rw [hc1]; norm_num), hc1]
    · have ht' : t ∈ l2.map Prod.fst := by
        rcases List.mem_map.mp ht with ⟨x, hx, hxt⟩
        rcases List.mem_cons.mp hx with rfl | hxl
        · exact absurd hxt he
        · exact List.mem_map.mpr ⟨x, hxl, hxt⟩
      exact ih (prodSeedStep st a) t ht'
        (by rw [titleCount_prodSeedStep_ne st a t he]; exact h1)

/-! Demo-user step lemmas -/

lemma userSeedStep_categories (st : Store) :
    (userSeedStep st).categories = st.categories := by
  unfold userSeedStep
  split <;> rfl

lemma userSeedStep_products (st : Store) :
    (userSeedStep st).products = st.products := by
  unfold userSeedStep
  split <;> rfl

lemma userSeedStep_orders (st : Store) :
    (userSeedStep st).orders = st.orders := by
  unfold userSeedStep
  split <;> rfl

lemma userSeedStep_noop (st : Store)
    (h : st.users.any (fun u => u.username == "demo") = true) :
    userSeedStep st = st := by
  unfold userSeedStep
  rw [if_pos h]

lemma userSeedStep_users_append (st : Store) :
    ∃ tl, (userSeedStep st).users = st.users ++ tl := by
  unfold userSeedStep
  split
  · exact ⟨[], (List.append_nil _).symm⟩
  · exact ⟨_, rfl⟩

lemma demoCount_userSeedStep_pos (st : Store) :
    0 < demoCountL (userSeedStep st).users := by
  unfold userSeedStep
  by_cases hany : (st.users.any (fun u => u.username == "demo")) = true
  · rw [if_pos hany]
    exact (any_demo_iff_pos _).mp hany
  · rw [if_neg hany]
    unfold demoCountL
    simp [List.countP_append, List.countP_cons]

lemma demoCount_userSeedStep (st : Store) (h : demoCountL st.users ≤ 1) :
    demoCountL (userSeedStep st).users = 1 := by
  unfold userSeedStep
  by_cases hany : (st.users.any (fun u => u.username == "demo")) = true
  · rw [if_pos hany]
    have hpos := (any_demo_iff_pos st.users).mp hany
    omega
  · rw [if_neg hany]
    have hz : demoCountL st.users = 0 := by
      by_contra hnz
      exact hany ((any_demo_iff_pos st.users).mpr (Nat.pos_of_ne_zero hnz))
    unfold demoCountL at hz ⊢
    simp [List.countP_append, List.countP_cons, hz]

end Amazons

namespace Amazons

/-! ## C8 -/

/-- C8 counterexample: from a starting state that already holds two
categories with the seeded slug "electronics", running seed twice leaves two
such categories, not exactly one — the claim's "from any starting state" is
too strong. -/
def dupCatStore : Store :=
  ⟨[], [⟨0, "E1", "electronics"⟩, ⟨1, "E2", "electronics"⟩], [], [], 2⟩

theorem seed_twice_dup_slug_cex :
    "electronics" ∈ baseCategories.map Prod.snd ∧
    slugCountL (seedCore (seedCore dupCatStore)).categories "electronics" = 2 := by
  constructor
  · decide
  · decide

/-- C8 (amended): seed is idempotent — a second run changes nothing — and it
never overwrites: each run only appends records, leaving existing ones
intact.  From any starting state holding at most one record per seeded key
(per seeded slug, seeded title, and the username "demo") — in particular
from any state only ever populated by this backend — running seed twice
leaves exactly one category per seeded slug, one product per seeded title
and one demo user. -/
theorem seed_idempotent (st : Store) :
    seedCore (seedCore st) = seedCore st ∧
    (∃ tc tp tu, (seedCore st).categories = st.categories ++ tc ∧
       (seedCore st).products = st.products ++ tp ∧
       (seedCore st).users = st.users ++ tu ∧
       (seedCore st).orders = st.orders) ∧
    ((∀ s ∈ baseCategories.map Prod.snd, slugCountL st.categories s ≤ 1) →
     (∀ t ∈ sampleProducts.map Prod.fst, titleCountL st.products t ≤ 1) →
     demoCountL st.users ≤ 1 →
     (∀ s ∈ baseCategories.map Prod.snd,
        slugCountL (seedCore (seedCore st)).categories s = 1) ∧
     (∀ t ∈ sampleProducts.map Prod.fst,
        titleCountL (seedCore (seedCore st)).products t = 1) ∧
     demoCountL (seedCore (seedCore st)).users = 1) := by
  have hScat : (seedCore st).categories =
      (baseCategories.foldl catSeedStep st).categories := by
    unfold seedCore
    rw [userSeedStep_categories, prodFold_categories]
  have hSprod : (seedCore st).products =
      (sampleProducts.foldl prodSeedStep (baseCategories.foldl catSeedStep st)).products := by
    unfold seedCore
    rw [userSeedStep_products]
  have hstep1 : baseCategories.foldl catSeedStep (seedCore st) = seedCore st := by
    apply catFold_noop
    intro c hcmem
    rw [hScat]
    exact (any_slug_iff_pos _ _).mpr (slugCount_catFold_pos baseCategories st c hcmem)
  have hstep2 : sampleProducts.foldl prodSeedStep (seedCore st) = seedCore st := by
    apply prodFold_noop
    intro p hpmem
    rw [hSprod]
    exact (any_title_iff_pos _ _).mpr
      (titleCount_prodFold_pos sampleProducts (baseCategories.foldl catSeedStep st) p hpmem)
  have hstep3 : userSeedStep (seedCore st) = seedCore st := by
    apply userSeedStep_noop
    show (userSeedStep
      (sampleProducts.foldl prodSeedStep (baseCategories.foldl catSeedStep st))).users.any
        (fun u => u.username == "demo") = true
    exact (any_demo_iff_pos _).mpr (demoCount_userSeedStep_pos _)
  have hidem : seedCore (seedCore st) = seedCore st := by
    show userSeedStep
        (sampleProducts.foldl prodSeedStep (baseCategories.foldl catSeedStep (seedCore st))) =
      seedCore st
    rw [hstep1, hstep2, hstep3]
  refine ⟨hidem, ?_, ?_⟩
  · rcases catFold_cats_append baseCategories st with ⟨tc, htc⟩
    rcases prodFold_prods_append sampleProducts (baseCategories.foldl catSeedStep st)
      with ⟨tp, htp⟩
    rcases userSeedStep_users_append
      (sampleProducts.foldl prodSeedStep (baseCategories.foldl catSeedStep st))
      with ⟨tu, htu⟩
    refine ⟨tc, tp, tu, ?_, ?_, ?_, ?_⟩
    · rw [hScat, htc]
    · rw [hSprod, htp, catFold_products]
    · show (userSeedStep
        (sampleProducts.foldl prodSeedStep (baseCategories.foldl catSeedStep st))).users =
          st.users ++ tu
      rw [htu, prodFold_users, catFold_users]
    · show (userSeedStep
        (sampleProducts.foldl prodSeedStep (baseCategories.foldl catSeedStep st))).orders =
          st.orders
      rw [userSeedStep_orders, prodFold_orders, catFold_orders]
  · intro hc hp hu
    refine ⟨?_, ?_, ?_⟩
    · intro s hs
      rw [hidem, hScat]
      exact slugCount_catFold_seeded baseCategories st s hs (hc s hs)
    · intro t ht
      rw [hidem, hSprod]
      apply titleCount_prodFold_seeded sampleProducts _ t ht
      rw [catFold_products]
      exact hp t ht
    · rw [hidem]
      show demoCountL (userSeedStep
        (sampleProducts.foldl prodSeedStep (baseCategories.foldl catSeedStep st))).users = 1
      apply demoCount_userSeedStep
      rw [prodFold_users, catFold_users]
      exact hu

/-- C8 witness: from the empty store, two seed runs leave exactly one
category with slug "electronics". -/
theorem seed_idempotent_witness :
    slugCountL (seedCore (seedCore emptyStore)).categories "electronics" = 1 :=
  ((seed_idempotent emptyStore).2.2 (by decide) (by decide) (by decide)).1
    "electronics" (by decide)

end Amazons
